import Mathlib

/-!
# Verification of the KivyMD theming and elevation subsystems

Shallow embedding of `src/kivymd/theming.py` and
`src/kivymd/uix/behaviors/elevation.py`.  Python numbers are modelled as
rationals, Python `int()` as truncation toward zero, Python dicts as
insertion-ordered association lists, and fallible code (`KeyError`,
`AttributeError`) as `Except`.
-/

namespace KivyMD

/-- Python exceptions raised by the embedded code. -/
inductive PyErr where
  | keyError (key : String)
  | attributeError
  | valueError
deriving DecidableEq, Repr

/-- Python `int()` applied to a float: truncation toward zero. -/
def pyInt (q : ℚ) : ℤ := if q < 0 then -⌊-q⌋ else ⌊q⌋

/-- Kivy's `dp` metric: scales a value by the display density (Kivy
`kivy.metrics.dpi2px` multiplies by `Metrics.density`).  The density is a
positive parameter. -/
def dp (density : ℚ) (x : ℚ) : ℚ := x * density

/-- The two values of `ThemeManager.theme_style`
(`OptionProperty("Light", options=["Light", "Dark"])`,
`src/kivymd/theming.py:401`). -/
inductive Style where
  | light
  | dark
deriving DecidableEq, Repr

/-- The string `theme_style.lower()` as used to index the scheme dictionaries. -/
def Style.lower : Style → String
  | .light => "light"
  | .dark => "dark"

/-- Embedding of `ThemeManager.switch_theme` (`src/kivymd/theming.py:676-679`):
`self.theme_style = "Dark" if self.theme_style == "Light" else "Light"`. -/
def switchTheme (s : Style) : Style :=
  if s = .light then .dark else .light

/-- Colors are opaque values (the integer color representation used by the
`materialyoucolor` dependency; `rgba` conversion is value-preserving for the
properties verified here). -/
abbrev Color := ℕ

/-- A scheme: an insertion-ordered mapping from role name to color.  This
models both a `materialyoucolor` scheme object's `props` dict and a plain
role dict. -/
abbrev Scheme := List (String × Color)

/-- The value of `ThemeManager.current_color_theme` (a Python dict,
`DictProperty()` at `src/kivymd/theming.py:140`, initially `{}`).  The code
only distinguishes whether the dict has a `"schemes"` key (mapping style
names to scheme objects) and otherwise indexes style names directly, so the
dict is split into those two parts. -/
structure ColorTheme where
  /-- The entry under the `"schemes"` key, when present: style name to the
  scheme object's `props` mapping. -/
  schemes : Option (List (String × Scheme))
  /-- All other top-level entries: style name to role dict. -/
  plain : List (String × Scheme)
deriving DecidableEq, Repr

/-- The initial value of `current_color_theme`: the empty dict. -/
def ColorTheme.initial : ColorTheme := ⟨none, []⟩

/-- The `ThemeManager` state relevant to color publication
(`src/kivymd/theming.py:51-743`).  `publishedColors` models the dynamically
named `<role>Color` attributes created by `exec`. -/
structure ThemeManager where
  theme_style : Style
  primary_palette : Option String
  dynamic_color : Bool
  current_color_theme : ColorTheme
  schemes_name_colors : List String
  publishedColors : List (String × Color)
  disabledTextColor : Option Color
deriving DecidableEq, Repr

/-- Python attribute assignment `self.<k> = v` on the dynamic attribute
dictionary: overwrite the entry if present, append it otherwise. -/
def setAttr (attrs : List (String × Color)) (k : String) (v : Color) :
    List (String × Color) :=
  if attrs.any (fun p => p.1 == k) then
    attrs.map (fun p => if p.1 == k then (k, v) else p)
  else
    attrs ++ [(k, v)]

/-- The loop shared by `update_theme_colors`, `_set_dynamic_color`,
`_set_default_color` and `_set_palette_color`: set
`schemes_name_colors` to the role names of the scheme and `exec` an
assignment `self.<role>Color = rgba(color)` for every role, then set
`disabledTextColor` from `_get_disabled_hint_text_color` (defined outside
this repository's sources; its result is the parameter `disabledColor`). -/
def publishScheme (disabledColor : Color) (sch : Scheme) (tm : ThemeManager) :
    ThemeManager :=
  { tm with
    schemes_name_colors := sch.map Prod.fst
    publishedColors :=
      sch.foldl (fun attrs p => setAttr attrs (p.1 ++ "Color") p.2)
        tm.publishedColors
    disabledTextColor := some disabledColor }

/-- Embedding of `ThemeManager.update_theme_colors` (`src/kivymd/theming.py:652-674`):
reads `current_color_theme`; if it has a `"schemes"` key, indexes
`["schemes"][theme_style.lower()].props`, otherwise indexes
`[theme_style.lower()]` directly; a missing style key raises `KeyError`. -/
def updateThemeColors (disabledColor : Color) (tm : ThemeManager) :
    Except PyErr ThemeManager :=
  let styleKey := tm.theme_style.lower
  match tm.current_color_theme.schemes with
  | some m =>
    match m.lookup styleKey with
    | none => .error (.keyError styleKey)
    | some sch => .ok (publishScheme disabledColor sch tm)
  | none =>
    match tm.current_color_theme.plain.lookup styleKey with
    | none => .error (.keyError styleKey)
    | some sch => .ok (publishScheme disabledColor sch tm)

/-- Embedding of `ThemeManager._set_default_color` (`src/kivymd/theming.py:704-715`):
builds `default_theme = {"schemes": theme_from_source_color(0xFF4285F4).schemes}`
(the scheme generation lives in the external `materialyoucolor` package and
is the parameter `genDefault`), stores it into `current_color_theme`, then
indexes `default_theme[self.theme_style.lower()]` — a plain key lookup on a
dict whose only key is `"schemes"`. -/
def setDefaultColor (genDefault : List (String × Scheme))
    (disabledColor : Color) (tm : ThemeManager) : Except PyErr ThemeManager :=
  let defaultTheme : ColorTheme := ⟨some genDefault, []⟩
  let tm := { tm with current_color_theme := defaultTheme }
  match defaultTheme.plain.lookup tm.theme_style.lower with
  | none => .error (.keyError tm.theme_style.lower)
  | some sch => .ok (publishScheme disabledColor sch tm)

/-- Embedding of `ThemeManager._set_palette_color` (`src/kivymd/theming.py:717-743`):
defaults `primary_palette` to `"Blue"` when unset, builds
`{"schemes": theme_from_source_color(argb_from_rgb(...)).schemes}` (the
whole named-color-to-scheme pipeline through `hex_colormap`,
`get_color_from_hex` and `materialyoucolor` is the parameter `genPalette`),
stores it, and publishes `["schemes"][theme_style.lower()].props`. -/
def setPaletteColor (genPalette : String → List (String × Scheme))
    (disabledColor : Color) (tm : ThemeManager) : Except PyErr ThemeManager :=
  let palette := tm.primary_palette.getD "Blue"
  let tm := { tm with primary_palette := some palette }
  let colorTheme : ColorTheme := ⟨some (genPalette palette), []⟩
  let tm := { tm with current_color_theme := colorTheme }
  match (genPalette palette).lookup tm.theme_style.lower with
  | none => .error (.keyError tm.theme_style.lower)
  | some sch => .ok (publishScheme disabledColor sch tm)

/-- Embedding of `ThemeManager._set_dynamic_color` (`src/kivymd/theming.py:690-702`):
builds `{"schemes": theme_from_source_color(source_color_from_image(path)).schemes}`
(the parameter `genWallpaper`), stores it, and publishes
`["schemes"][theme_style.lower()].props`. -/
def setDynamicColor (genWallpaper : String → List (String × Scheme))
    (disabledColor : Color) (path : String) (tm : ThemeManager) :
    Except PyErr ThemeManager :=
  let dynamicTheme : ColorTheme := ⟨some (genWallpaper path), []⟩
  let tm := { tm with current_color_theme := dynamicTheme }
  match (genWallpaper path).lookup tm.theme_style.lower with
  | none => .error (.keyError tm.theme_style.lower)
  | some sch => .ok (publishScheme disabledColor sch tm)

/-- Embedding of `ThemeManager.set_colors` (`src/kivymd/theming.py:629-644`): branches on
`dynamic_color`; when disabled, on whether `primary_palette` is set; when
enabled, on whether `get_wallpaper` (external, its result is the
`wallpaper` parameter) returned a path. -/
def setColors (genDefault : List (String × Scheme))
    (genPalette : String → List (String × Scheme))
    (genWallpaper : String → List (String × Scheme))
    (wallpaper : Option String) (disabledColor : Color) (tm : ThemeManager) :
    Except PyErr ThemeManager :=
  if !tm.dynamic_color then
    if tm.primary_palette = none then
      setDefaultColor genDefault disabledColor tm
    else
      setPaletteColor genPalette disabledColor tm
  else
    match wallpaper with
    | some path => setDynamicColor genWallpaper disabledColor path tm
    | none => setPaletteColor genPalette disabledColor tm

/-- The `ThemeManager` state right after construction: `theme_style` defaults
to `"Light"`, `primary_palette` to `None`, `dynamic_color` to `False`, and
`current_color_theme` to the empty dict. -/
def ThemeManager.initial : ThemeManager :=
  { theme_style := .light
    primary_palette := none
    dynamic_color := false
    current_color_theme := ColorTheme.initial
    schemes_name_colors := []
    publishedColors := []
    disabledTextColor := none }

/-- A key is found by `List.lookup` exactly when it occurs among the keys. -/
theorem lookup_isSome_iff_mem_keys {β : Type} (l : List (String × β)) (k : String) :
    (l.lookup k).isSome ↔ k ∈ l.map Prod.fst := by
  induction l with
  | nil => simp [List.lookup]
  | cons p rest ih =>
    rw [List.lookup]
    by_cases h : k = p.1
    · simp [h]
    · have : (k == p.1) = false := by simpa using h
      simp [this, ih, h]

/-- Lemma: `setAttr` keeps every existing key. -/
theorem mem_keys_setAttr_of_mem (attrs : List (String × Color)) (k : String)
    (v : Color) (k' : String) (h : k' ∈ attrs.map Prod.fst) :
    k' ∈ (setAttr attrs k v).map Prod.fst := by
  unfold setAttr
  by_cases hany : attrs.any (fun p => p.1 == k)
  · simp only [hany, if_true, List.map_map]
    rcases List.mem_map.mp h with ⟨p, hp, hpk⟩
    refine List.mem_map.mpr ⟨p, hp, ?_⟩
    by_cases hpk2 : (p.1 == k) = true
    · have hpe : p.1 = k := by simpa using hpk2
      simp [Function.comp, hpk2, ← hpk, hpe]
    · have hne : k' ≠ k := by
        intro hkk
        exact hpk2 (by simp [hpk, hkk])
      simp only [Function.comp]
      rw [if_neg]
      · exact hpk
      · simp [hpk, hne]
  · have hf : attrs.any (fun p => p.1 == k) = false := by
      cases hx : attrs.any (fun p => p.1 == k) with
      | false => rfl
      | true => exact absurd hx hany
    simp [hf, List.mem_append, h]

/-- Lemma: `setAttr` puts its key among the keys. -/
theorem mem_keys_setAttr_self (attrs : List (String × Color)) (k : String)
    (v : Color) : k ∈ (setAttr attrs k v).map Prod.fst := by
  unfold setAttr
  by_cases hany : attrs.any (fun p => p.1 == k)
  · rcases List.any_eq_true.mp hany with ⟨p, hp, hpk⟩
    simp only [if_pos hany, List.map_map]
    refine List.mem_map.mpr ⟨p, hp, ?_⟩
    simp [Function.comp, hpk]
  · simp [hany]

/-- Every role of the scheme ends up among the attribute keys after the
publication fold. -/
theorem publish_fold_mem (sch : Scheme) (attrs : List (String × Color))
    (k' : String) (h : k' ∈ attrs.map Prod.fst ∨
      ∃ p ∈ sch, k' = p.1 ++ "Color") :
    k' ∈ ((sch.foldl (fun a p => setAttr a (p.1 ++ "Color") p.2)
      attrs).map Prod.fst) := by
  induction sch generalizing attrs with
  | nil =>
    rcases h with h | ⟨p, hp, _⟩
    · simpa using h
    · simp at hp
  | cons q rest ih =>
    simp only [List.foldl_cons]
    refine ih _ ?_
    rcases h with h | ⟨p, hp, hk⟩
    · exact Or.inl (mem_keys_setAttr_of_mem _ _ _ _ h)
    · rcases List.mem_cons.mp hp with rfl | hp2
      · exact Or.inl (hk ▸ mem_keys_setAttr_self _ _ _)
      · exact Or.inr ⟨p, hp2, hk⟩

/-- The scheme `update_theme_colors` publishes from: the `"schemes"` entry
indexed by the active style when the dict has a `"schemes"` key, the direct
style entry otherwise; `none` models the `KeyError` case. -/
def activeScheme (tm : ThemeManager) : Option Scheme :=
  match tm.current_color_theme.schemes with
  | some m => m.lookup tm.theme_style.lower
  | none => tm.current_color_theme.plain.lookup tm.theme_style.lower

theorem updateThemeColors_eq (d : Color) (tm : ThemeManager) :
    updateThemeColors d tm =
      match activeScheme tm with
      | none => .error (.keyError tm.theme_style.lower)
      | some sch => .ok (publishScheme d sch tm) := by
  unfold updateThemeColors activeScheme
  cases tm.current_color_theme.schemes <;> rfl

/-- A concrete theme dict holding full light and dark schemes, for the C2
witness. -/
def tmC2 : ThemeManager :=
  { ThemeManager.initial with
    current_color_theme :=
      ⟨some [("light", [("primary", 1), ("onPrimary", 2)]),
             ("dark", [("primary", 3), ("onPrimary", 4)])], []⟩ }

/-- C2 (counterexample). On the initial empty-dict value of
`current_color_theme`, `update_theme_colors` raises `KeyError("light")`
instead of republishing a non-empty role-to-color mapping. -/
theorem updateThemeColors_initial_keyError :
    updateThemeColors 0 ThemeManager.initial = .error (.keyError "light") := rfl

/-- C2 (amended). Whenever `current_color_theme` actually contains a
scheme for the active style (under a `"schemes"` key or directly),
`update_theme_colors` succeeds, sets `schemes_name_colors` to the full list
of the scheme's role names (non-empty exactly when the scheme is non-empty),
and gives every listed role a `<role>Color` attribute.  On the initial empty
dict the lookup raises `KeyError` and nothing is republished. -/
theorem updateThemeColors_publishes (d : Color) (tm : ThemeManager)
    (sch : Scheme) (h : activeScheme tm = some sch) :
    ∃ tm', updateThemeColors d tm = .ok tm' ∧
      tm'.schemes_name_colors = sch.map Prod.fst ∧
      (tm'.schemes_name_colors = [] ↔ sch = []) ∧
      ∀ role ∈ tm'.schemes_name_colors,
        (tm'.publishedColors.lookup (role ++ "Color")).isSome := by
  refine ⟨publishScheme d sch tm, ?_, rfl, ?_, ?_⟩
  · rw [updateThemeColors_eq, h]
  · simp [publishScheme]
  · intro role hrole
    have hmem : role ∈ sch.map Prod.fst := hrole
    rcases List.mem_map.mp hmem with ⟨p, hp, hpk⟩
    have hkeys :
        role ++ "Color" ∈
          ((sch.foldl (fun a q => setAttr a (q.1 ++ "Color") q.2)
            tm.publishedColors).map Prod.fst) :=
      publish_fold_mem sch tm.publishedColors (role ++ "Color")
        (Or.inr ⟨p, hp, by rw [hpk]⟩)
    exact (lookup_isSome_iff_mem_keys _ _).mpr hkeys

/-- C2 (witness). The amended theorem applied to a concrete two-scheme
theme dict in the Light style. -/
theorem updateThemeColors_publishes_witness :
    ∃ tm', updateThemeColors 0 tmC2 = .ok tm' ∧
      tm'.schemes_name_colors =
        ([("primary", (1 : Color)), ("onPrimary", 2)].map Prod.fst) ∧
      (tm'.schemes_name_colors = [] ↔
        ([("primary", (1 : Color)), ("onPrimary", 2)] : Scheme) = []) ∧
      ∀ role ∈ tm'.schemes_name_colors,
        (tm'.publishedColors.lookup (role ++ "Color")).isSome :=
  updateThemeColors_publishes 0 tmC2 [("primary", 1), ("onPrimary", 2)] rfl

/-- Concrete schemes for both styles, used to evaluate `set_colors` on its
default-color path. -/
def schemesC6 : List (String × Scheme) :=
  [("light", [("primary", 10), ("onPrimary", 11)]),
   ("dark", [("primary", 12), ("onPrimary", 13)])]

/-- C6. Evaluating `set_colors` in the initial state
(`dynamic_color = False`, `primary_palette = None`, style Light), with
scheme generation producing full light and dark schemes:
`_set_default_color` stores `{"schemes": ...}` into `current_color_theme`
and then indexes `default_theme["light"]`, raising `KeyError("light")` — the
role colors are never republished on this path, contradicting the claim. -/
theorem setColors_default_path_keyError :
    setColors schemesC6 (fun _ => schemesC6) (fun _ => schemesC6) none 0
      ThemeManager.initial = .error (.keyError "light") := rfl

/-- C10. `switch_theme` is a strict involution on `theme_style`: a single
call always moves to the other member of `{Light, Dark}`, and two consecutive
calls restore the original value. -/
theorem switchTheme_strict_involution (s : Style) :
    switchTheme s ≠ s ∧ switchTheme (switchTheme s) = s := by
  cases s <;> simp [switchTheme]

/-!
## Elevation behavior (`src/kivymd/uix/behaviors/elevation.py`)
-/

/-- A shadow texture, tracked by the dimensions of the PIL image it was
rasterized from and by whether that image is still the fully transparent
image it was created as (`Image.new("RGBA", size, color=(0, 0, 0, 0))` with
no subsequent draw call). -/
structure Texture where
  width : ℤ
  height : ℤ
  blank : Bool
deriving DecidableEq, Repr

/-- The 4×4 fully transparent placeholder texture built in
`CommonElevationBehavior.__init__` and in the zero-elevation branch of
`_update_shadow`: `Image.new("RGBA", (4, 4), color=(0, 0, 0, 0))`, saved
without any drawing. -/
def placeholderTexture : Texture := ⟨4, 4, true⟩

/-- The state of a widget with `CommonElevationBehavior`
(`src/kivymd/uix/behaviors/elevation.py:219-824`).  Fields keep the Python
property names; `_shadow_origin` is the reference-list pair of
`_shadow_origin_x/_shadow_origin_y`.  The texture fields stand for
`hard_shadow_texture` and `_soft_shadow_texture`. -/
structure ElevState where
  x : ℚ
  y : ℚ
  width : ℚ
  height : ℚ
  elevation : Option ℚ
  _elevation : ℚ
  shadow_pos : ℚ × ℚ
  _shadow_pos : ℚ × ℚ
  _shadow_origin : ℚ × ℚ
  hard_shadow_offset : ℚ
  soft_shadow_offset : ℚ
  hard_shadow_pos : ℚ × ℚ
  soft_shadow_pos : ℚ × ℚ
  hard_shadow_size : ℤ × ℤ
  soft_shadow_size : ℤ × ℤ
  hardTexture : Texture
  softTexture : Texture
  soft_shadow_cl : List ℚ
  hard_shadow_cl : List ℚ
  disabled : Bool
deriving DecidableEq, Repr

/-- Embedding of `_update_shadow_pos` (`elevation.py:693-723`): hard shadow at the widget
position minus `dp(hard_shadow_offset)`; soft shadow offset additionally by
`_shadow_pos` (or the fixed `shadow_pos` override when set) minus
`_elevation` minus `dp(soft_shadow_offset)`; `_shadow_origin` is the center
of the soft shadow rectangle. -/
def updateShadowPos (density : ℚ) (s : ElevState) : ElevState :=
  let hardPos : ℚ × ℚ :=
    (s.x - dp density s.hard_shadow_offset,
     s.y - dp density s.hard_shadow_offset)
  let softPos : ℚ × ℚ :=
    if s.shadow_pos = (0, 0) then
      (s.x + s._shadow_pos.1 - s._elevation - dp density s.soft_shadow_offset,
       s.y + s._shadow_pos.2 - s._elevation - dp density s.soft_shadow_offset)
    else
      (s.x + s.shadow_pos.1 - s._elevation - dp density s.soft_shadow_offset,
       s.y + s.shadow_pos.2 - s._elevation - dp density s.soft_shadow_offset)
  { s with
    hard_shadow_pos := hardPos
    soft_shadow_pos := softPos
    _shadow_origin :=
      (softPos.1 + (s.soft_shadow_size.1 : ℚ) / 2,
       softPos.2 + (s.soft_shadow_size.2 : ℚ) / 2) }

/-- The `self._shadow_pos = [0, -self._elevation * 0.4]` statement at
`elevation.py:745-746`: the assignment dispatches `on__shadow_pos`, which
reruns `_update_shadow_pos`, but only when the stored value changes. -/
def shadowPosRefresh (density : ℚ) (s : ElevState) : ElevState :=
  if s.shadow_pos = (0, 0) then
    if s._shadow_pos = ((0 : ℚ), -s._elevation * (2 / 5)) then s
    else
      updateShadowPos density
        { s with _shadow_pos := ((0 : ℚ), -s._elevation * (2 / 5)) }
  else s

/-- The hard-shadow block of `_update_shadow` (`elevation.py:747-775`):
`offset = int(dp(hard_shadow_offset))`, the backing image has size
`[int(size[0] + offset * 2), int(size[1] + offset * 2)]`, is drawn on by
`draw_shadow` and Gaussian-blurred (neither changes its dimensions), and
becomes `hard_shadow_size` / `hard_shadow_texture`. -/
def updateShadowHard (density : ℚ) (s : ElevState) : ElevState :=
  let offset : ℤ := pyInt (dp density s.hard_shadow_offset)
  let size : ℤ × ℤ :=
    (pyInt (s.width + (offset : ℚ) * 2), pyInt (s.height + (offset : ℚ) * 2))
  { s with
    hard_shadow_size := size
    hardTexture := ⟨size.1, size.2, false⟩ }

/-- The soft-shadow block of `_update_shadow` (`elevation.py:777-805`):
`offset = dp(soft_shadow_offset)` and the image has size
`[int(size[0] + dp(_elevation * 2) + offset * 2), int(size[1] + dp(_elevation * 2) + offset * 2)]`. -/
def updateShadowSoft (density : ℚ) (s : ElevState) : ElevState :=
  let offset : ℚ := dp density s.soft_shadow_offset
  let size : ℤ × ℤ :=
    (pyInt (s.width + dp density (s._elevation * 2) + offset * 2),
     pyInt (s.height + dp density (s._elevation * 2) + offset * 2))
  { s with
    soft_shadow_size := size
    softTexture := ⟨size.1, size.2, false⟩ }

/-- Embedding of `_update_shadow` (`elevation.py:741-814`): recompute positions, then for
positive `_elevation` rebuild both shadow images, otherwise install the 4×4
transparent placeholder as both textures. -/
def updateShadow (density : ℚ) (s : ElevState) : ElevState :=
  let s := updateShadowPos density s
  if 0 < s._elevation then
    updateShadowSoft density (updateShadowHard density (shadowPosRefresh density s))
  else
    { s with
      softTexture := placeholderTexture
      hardTexture := placeholderTexture }

/-- Python `lst[-1] = x`: replace the last element.  The `soft_shadow_cl` /
`hard_shadow_cl` lists are 4-element RGBA colors, so the empty case (an
`IndexError` in Python) is unreachable. -/
def setLastElem : List ℚ → ℚ → List ℚ
  | [], _ => []
  | [_], v => [v]
  | a :: rest, v => a :: setLastElem rest v

/-- Embedding of `_set_soft_shadow_a` (`elevation.py:650-653`):
`value = 0 if value < 0 else (1 if value > 1 else value)` stored into
`soft_shadow_cl[-1]`. -/
def setSoftShadowA (value : ℚ) (s : ElevState) : ElevState :=
  let value := if value < 0 then 0 else if value > 1 then 1 else value
  { s with soft_shadow_cl := setLastElem s.soft_shadow_cl value }

/-- Embedding of `_set_hard_shadow_a` (`elevation.py:655-658`): the same clamp stored into
`hard_shadow_cl[-1]`. -/
def setHardShadowA (value : ℚ) (s : ElevState) : ElevState :=
  let value := if value < 0 then 0 else if value > 1 then 1 else value
  { s with hard_shadow_cl := setLastElem s.hard_shadow_cl value }

/-- A Python assignment `self._elevation = v`: `_elevation` is bound to
`_update_shadow` (in `shadow_preset`, `elevation.py:636-640`), and Kivy
dispatches the bound callback only when the stored value changes. -/
def assignCurElevation (density : ℚ) (v : ℚ) (s : ElevState) : ElevState :=
  if s._elevation = v then s
  else updateShadow density { s with _elevation := v }

/-- Embedding of `on_disabled` (`elevation.py:673-686`): with the `disabled` property
already holding the new value, set `_elevation` to `0` when disabled and
back to `elevation` (or `0` when that is `None`) when re-enabled, then run
`_update_shadow`. -/
def onDisabled (density : ℚ) (value : Bool) (s : ElevState) : ElevState :=
  let s := { s with disabled := value }
  let s :=
    if s.disabled then assignCurElevation density 0 s
    else
      assignCurElevation density
        (match s.elevation with
         | none => 0
         | some e => e) s
  updateShadow density s

/-- Lemma: `int()` of an integer-valued rational is that integer. -/
theorem pyInt_intCast (n : ℤ) : pyInt (n : ℚ) = n := by
  unfold pyInt
  by_cases hn : ((n : ℚ) < 0)
  · rw [if_pos hn]
    have hcast : (-(n : ℚ)) = ((-n : ℤ) : ℚ) := by push_cast; ring
    rw [hcast, Int.floor_intCast]
    ring
  · rw [if_neg hn, Int.floor_intCast]

theorem updateShadowPos_width (d : ℚ) (s : ElevState) :
    (updateShadowPos d s).width = s.width := rfl

theorem updateShadowPos_height (d : ℚ) (s : ElevState) :
    (updateShadowPos d s).height = s.height := rfl

theorem updateShadowPos_curElev (d : ℚ) (s : ElevState) :
    (updateShadowPos d s)._elevation = s._elevation := rfl

theorem updateShadowPos_elev (d : ℚ) (s : ElevState) :
    (updateShadowPos d s).elevation = s.elevation := rfl

theorem updateShadowPos_hoff (d : ℚ) (s : ElevState) :
    (updateShadowPos d s).hard_shadow_offset = s.hard_shadow_offset := rfl

theorem updateShadowPos_soff (d : ℚ) (s : ElevState) :
    (updateShadowPos d s).soft_shadow_offset = s.soft_shadow_offset := rfl

theorem shadowPosRefresh_width (d : ℚ) (s : ElevState) :
    (shadowPosRefresh d s).width = s.width := by
  unfold shadowPosRefresh
  split
  · split
    · rfl
    · rfl
  · rfl

theorem shadowPosRefresh_height (d : ℚ) (s : ElevState) :
    (shadowPosRefresh d s).height = s.height := by
  unfold shadowPosRefresh
  split
  · split
    · rfl
    · rfl
  · rfl

theorem shadowPosRefresh_curElev (d : ℚ) (s : ElevState) :
    (shadowPosRefresh d s)._elevation = s._elevation := by
  unfold shadowPosRefresh
  split
  · split
    · rfl
    · rfl
  · rfl

theorem shadowPosRefresh_elev (d : ℚ) (s : ElevState) :
    (shadowPosRefresh d s).elevation = s.elevation := by
  unfold shadowPosRefresh
  split
  · split
    · rfl
    · rfl
  · rfl

theorem shadowPosRefresh_hoff (d : ℚ) (s : ElevState) :
    (shadowPosRefresh d s).hard_shadow_offset = s.hard_shadow_offset := by
  unfold shadowPosRefresh
  split
  · split
    · rfl
    · rfl
  · rfl

theorem shadowPosRefresh_soff (d : ℚ) (s : ElevState) :
    (shadowPosRefresh d s).soft_shadow_offset = s.soft_shadow_offset := by
  unfold shadowPosRefresh
  split
  · split
    · rfl
    · rfl
  · rfl

theorem updateShadowHard_hardTexture (d : ℚ) (s : ElevState) :
    (updateShadowHard d s).hardTexture =
      ⟨pyInt (s.width + (pyInt (dp d s.hard_shadow_offset) : ℚ) * 2),
       pyInt (s.height + (pyInt (dp d s.hard_shadow_offset) : ℚ) * 2),
       false⟩ := rfl

theorem updateShadowHard_hsize (d : ℚ) (s : ElevState) :
    (updateShadowHard d s).hard_shadow_size =
      (pyInt (s.width + (pyInt (dp d s.hard_shadow_offset) : ℚ) * 2),
       pyInt (s.height + (pyInt (dp d s.hard_shadow_offset) : ℚ) * 2)) := rfl

theorem updateShadowHard_width (d : ℚ) (s : ElevState) :
    (updateShadowHard d s).width = s.width := rfl

theorem updateShadowHard_height (d : ℚ) (s : ElevState) :
    (updateShadowHard d s).height = s.height := rfl

theorem updateShadowHard_curElev (d : ℚ) (s : ElevState) :
    (updateShadowHard d s)._elevation = s._elevation := rfl

theorem updateShadowHard_elev (d : ℚ) (s : ElevState) :
    (updateShadowHard d s).elevation = s.elevation := rfl

theorem updateShadowHard_soff (d : ℚ) (s : ElevState) :
    (updateShadowHard d s).soft_shadow_offset = s.soft_shadow_offset := rfl

theorem updateShadowSoft_softTexture (d : ℚ) (s : ElevState) :
    (updateShadowSoft d s).softTexture =
      ⟨pyInt (s.width + dp d (s._elevation * 2) + dp d s.soft_shadow_offset * 2),
       pyInt (s.height + dp d (s._elevation * 2) + dp d s.soft_shadow_offset * 2),
       false⟩ := rfl

theorem updateShadowSoft_ssize (d : ℚ) (s : ElevState) :
    (updateShadowSoft d s).soft_shadow_size =
      (pyInt (s.width + dp d (s._elevation * 2) + dp d s.soft_shadow_offset * 2),
       pyInt (s.height + dp d (s._elevation * 2) + dp d s.soft_shadow_offset * 2)) := rfl

theorem updateShadowSoft_hardTexture (d : ℚ) (s : ElevState) :
    (updateShadowSoft d s).hardTexture = s.hardTexture := rfl

theorem updateShadowSoft_hsize (d : ℚ) (s : ElevState) :
    (updateShadowSoft d s).hard_shadow_size = s.hard_shadow_size := rfl

theorem updateShadowSoft_curElev (d : ℚ) (s : ElevState) :
    (updateShadowSoft d s)._elevation = s._elevation := rfl

theorem updateShadowSoft_elev (d : ℚ) (s : ElevState) :
    (updateShadowSoft d s).elevation = s.elevation := rfl

theorem updateShadow_curElev (d : ℚ) (s : ElevState) :
    (updateShadow d s)._elevation = s._elevation := by
  unfold updateShadow
  dsimp only
  split
  · simp only [updateShadowSoft_curElev, updateShadowHard_curElev,
      shadowPosRefresh_curElev, updateShadowPos_curElev]
  · rfl

theorem updateShadow_elev (d : ℚ) (s : ElevState) :
    (updateShadow d s).elevation = s.elevation := by
  unfold updateShadow
  dsimp only
  split
  · simp only [updateShadowSoft_elev, updateShadowHard_elev,
      shadowPosRefresh_elev, updateShadowPos_elev]
  · rfl

theorem assignCurElevation_curElev (d v : ℚ) (s : ElevState) :
    (assignCurElevation d v s)._elevation = v := by
  unfold assignCurElevation
  by_cases hc : s._elevation = v
  · simp only [hc, if_true]
  · simp only [hc, if_false, updateShadow_curElev]

theorem assignCurElevation_elev (d v : ℚ) (s : ElevState) :
    (assignCurElevation d v s).elevation = s.elevation := by
  unfold assignCurElevation
  by_cases hc : s._elevation = v
  · simp only [hc, if_true]
  · simp only [hc, if_false, updateShadow_elev]

theorem onDisabled_elev (d : ℚ) (b : Bool) (s : ElevState) :
    (onDisabled d b s).elevation = s.elevation := by
  unfold onDisabled
  cases b <;>
    simp only [Bool.false_eq_true, if_false, if_true, updateShadow_elev,
      assignCurElevation_elev]

theorem onDisabled_true_curElev (d : ℚ) (s : ElevState) :
    (onDisabled d true s)._elevation = 0 := by
  unfold onDisabled
  simp only [if_true, updateShadow_curElev, assignCurElevation_curElev]

theorem onDisabled_false_curElev (d : ℚ) (s : ElevState) :
    (onDisabled d false s)._elevation =
      (match s.elevation with
       | none => 0
       | some e => e) := by
  unfold onDisabled
  simp only [Bool.false_eq_true, if_false, updateShadow_curElev,
    assignCurElevation_curElev]

/-- The property defaults of `CommonElevationBehavior` (widget geometry at
the Kivy widget defaults `pos = (0, 0)`, `size = (100, 100)`). -/
def elevDefault : ElevState :=
  { x := 0
    y := 0
    width := 100
    height := 100
    elevation := some 0
    _elevation := 0
    shadow_pos := (0, 0)
    _shadow_pos := (0, 0)
    _shadow_origin := (0, 0)
    hard_shadow_offset := 2
    soft_shadow_offset := 4
    hard_shadow_pos := (0, 0)
    soft_shadow_pos := (0, 0)
    hard_shadow_size := (0, 0)
    soft_shadow_size := (0, 0)
    hardTexture := placeholderTexture
    softTexture := placeholderTexture
    soft_shadow_cl := [0, 0, 0, 1 / 2]
    hard_shadow_cl := [0, 0, 0, 3 / 20]
    disabled := false }

/-- C1. After `_update_shadow`: at `_elevation = 0` both textures become
the fixed 4×4 fully transparent placeholder; at `_elevation > 0` the hard
texture (and `hard_shadow_size`) is the widget size plus twice the
pixel-rounded `dp(hard_shadow_offset)` in each dimension, and the soft
texture (and `soft_shadow_size`) is the widget size plus twice
`dp(_elevation)` plus twice `dp(soft_shadow_offset)` in each dimension
(stated where the widget size and the dp-scaled offsets are whole pixels,
so that the `int()` roundings are exact). -/
theorem updateShadow_texture_sizes (d : ℚ) (s : ElevState) (w h oh os ee : ℤ)
    (hw : s.width = (w : ℚ)) (hh : s.height = (h : ℚ))
    (hoh : dp d s.hard_shadow_offset = (oh : ℚ))
    (hos : dp d s.soft_shadow_offset = (os : ℚ))
    (he : dp d s._elevation = (ee : ℚ)) :
    (s._elevation = 0 →
      (updateShadow d s).hardTexture = placeholderTexture ∧
      (updateShadow d s).softTexture = placeholderTexture ∧
      placeholderTexture = ⟨4, 4, true⟩) ∧
    (0 < s._elevation →
      (updateShadow d s).hardTexture.width = w + 2 * oh ∧
      (updateShadow d s).hardTexture.height = h + 2 * oh ∧
      (updateShadow d s).softTexture.width = w + 2 * ee + 2 * os ∧
      (updateShadow d s).softTexture.height = h + 2 * ee + 2 * os ∧
      (updateShadow d s).hard_shadow_size = (w + 2 * oh, h + 2 * oh) ∧
      (updateShadow d s).soft_shadow_size =
        (w + 2 * ee + 2 * os, h + 2 * ee + 2 * os)) := by
  have hbase := updateShadowPos_curElev d s
  constructor
  · intro hz
    have hcond : ¬ 0 < s._elevation := by rw [hz]; exact lt_irrefl 0
    unfold updateShadow
    dsimp only
    rw [hbase, if_neg hcond]
    exact ⟨rfl, rfl, rfl⟩
  · intro hp
    unfold updateShadow
    dsimp only
    rw [hbase, if_pos hp]
    have hwidth : (shadowPosRefresh d (updateShadowPos d s)).width = (w : ℚ) := by
      rw [shadowPosRefresh_width, updateShadowPos_width, hw]
    have hheight : (shadowPosRefresh d (updateShadowPos d s)).height = (h : ℚ) := by
      rw [shadowPosRefresh_height, updateShadowPos_height, hh]
    have hho : dp d (shadowPosRefresh d (updateShadowPos d s)).hard_shadow_offset
        = (oh : ℚ) := by
      rw [shadowPosRefresh_hoff, updateShadowPos_hoff, hoh]
    have hso : dp d (updateShadowHard d (shadowPosRefresh d
        (updateShadowPos d s))).soft_shadow_offset = (os : ℚ) := by
      rw [updateShadowHard_soff, shadowPosRefresh_soff, updateShadowPos_soff, hos]
    have hee : dp d ((updateShadowHard d (shadowPosRefresh d
        (updateShadowPos d s)))._elevation * 2) = ((2 * ee : ℤ) : ℚ) := by
      rw [updateShadowHard_curElev, shadowPosRefresh_curElev,
        updateShadowPos_curElev]
      unfold dp at he ⊢
      push_cast
      linarith [he]
    have hhard :
        (updateShadowHard d (shadowPosRefresh d (updateShadowPos d s))).hardTexture
          = ⟨w + 2 * oh, h + 2 * oh, false⟩ := by
      rw [updateShadowHard_hardTexture, hwidth, hheight, hho, pyInt_intCast]
      have e1 : ((w : ℚ) + (oh : ℚ) * 2) = (((w + 2 * oh : ℤ)) : ℚ) := by
        push_cast; ring
      have e2 : ((h : ℚ) + (oh : ℚ) * 2) = (((h + 2 * oh : ℤ)) : ℚ) := by
        push_cast; ring
      rw [e1, e2, pyInt_intCast, pyInt_intCast]
    have hhsize :
        (updateShadowHard d (shadowPosRefresh d (updateShadowPos d s))).hard_shadow_size
          = (w + 2 * oh, h + 2 * oh) := by
      rw [updateShadowHard_hsize, hwidth, hheight, hho, pyInt_intCast]
      have e1 : ((w : ℚ) + (oh : ℚ) * 2) = (((w + 2 * oh : ℤ)) : ℚ) := by
        push_cast; ring
      have e2 : ((h : ℚ) + (oh : ℚ) * 2) = (((h + 2 * oh : ℤ)) : ℚ) := by
        push_cast; ring
      rw [e1, e2, pyInt_intCast, pyInt_intCast]
    have hwidth2 : (updateShadowHard d (shadowPosRefresh d
        (updateShadowPos d s))).width = (w : ℚ) := by
      rw [updateShadowHard_width]; exact hwidth
    have hheight2 : (updateShadowHard d (shadowPosRefresh d
        (updateShadowPos d s))).height = (h : ℚ) := by
      rw [updateShadowHard_height]; exact hheight
    have hsoft :
        (updateShadowSoft d (updateShadowHard d (shadowPosRefresh d
          (updateShadowPos d s)))).softTexture
          = ⟨w + 2 * ee + 2 * os, h + 2 * ee + 2 * os, false⟩ := by
      rw [updateShadowSoft_softTexture, hwidth2, hheight2, hso, hee]
      have e1 : ((w : ℚ) + ((2 * ee : ℤ) : ℚ) + (os : ℚ) * 2)
          = (((w + 2 * ee + 2 * os : ℤ)) : ℚ) := by push_cast; ring
      have e2 : ((h : ℚ) + ((2 * ee : ℤ) : ℚ) + (os : ℚ) * 2)
          = (((h + 2 * ee + 2 * os : ℤ)) : ℚ) := by push_cast; ring
      rw [e1, e2, pyInt_intCast, pyInt_intCast]
    have hssize :
        (updateShadowSoft d (updateShadowHard d (shadowPosRefresh d
          (updateShadowPos d s)))).soft_shadow_size
          = (w + 2 * ee + 2 * os, h + 2 * ee + 2 * os) := by
      rw [updateShadowSoft_ssize, hwidth2, hheight2, hso, hee]
      have e1 : ((w : ℚ) + ((2 * ee : ℤ) : ℚ) + (os : ℚ) * 2)
          = (((w + 2 * ee + 2 * os : ℤ)) : ℚ) := by push_cast; ring
      have e2 : ((h : ℚ) + ((2 * ee : ℤ) : ℚ) + (os : ℚ) * 2)
          = (((h + 2 * ee + 2 * os : ℤ)) : ℚ) := by push_cast; ring
      rw [e1, e2, pyInt_intCast, pyInt_intCast]
    refine ⟨?_, ?_, ?_, ?_, ?_, hssize⟩
    · rw [updateShadowSoft_hardTexture, hhard]
    · rw [updateShadowSoft_hardTexture, hhard]
    · rw [hsoft]
    · rw [hsoft]
    · rw [updateShadowSoft_hsize, hhsize]

/-- A widget state with positive current elevation for the C1 witness:
size 100×50, `_elevation = 3`, default offsets, density 1. -/
def elevC1 : ElevState := { elevDefault with height := 50, _elevation := 3 }

/-- C1 (witness). At density 1, size 100×50 and `_elevation = 3` the
hard texture is 104×54 and the soft texture is 114×64; at the default state
(`_elevation = 0`) both textures are the 4×4 transparent placeholder. -/
theorem updateShadow_texture_sizes_witness :
    (updateShadow 1 elevC1).hardTexture.width = 104 ∧
    (updateShadow 1 elevC1).hardTexture.height = 54 ∧
    (updateShadow 1 elevC1).softTexture.width = 114 ∧
    (updateShadow 1 elevC1).softTexture.height = 64 ∧
    (updateShadow 1 elevDefault).hardTexture = placeholderTexture ∧
    (updateShadow 1 elevDefault).softTexture = placeholderTexture := by
  have hpos := (updateShadow_texture_sizes 1 elevC1 100 50 2 4 3
    (by norm_num [elevC1, elevDefault]) (by norm_num [elevC1, elevDefault])
    (by norm_num [elevC1, elevDefault, dp]) (by norm_num [elevC1, elevDefault, dp])
    (by norm_num [elevC1, elevDefault, dp])).2
    (by norm_num [elevC1, elevDefault])
  have hzero := (updateShadow_texture_sizes 1 elevDefault 100 100 2 4 0
    (by norm_num [elevDefault]) (by norm_num [elevDefault])
    (by norm_num [elevDefault, dp]) (by norm_num [elevDefault, dp])
    (by norm_num [elevDefault, dp])).1 (by norm_num [elevDefault])
  refine ⟨hpos.1.trans (by norm_num), hpos.2.1.trans (by norm_num),
    hpos.2.2.1.trans (by norm_num), hpos.2.2.2.1.trans (by norm_num),
    hzero.1, hzero.2.1⟩

/-- Lemma: `setLastElem` never empties a non-empty list. -/
theorem setLastElem_ne_nil (l : List ℚ) (v : ℚ) (h : l ≠ []) :
    setLastElem l v ≠ [] := by
  cases l with
  | nil => exact absurd rfl h
  | cons a rest => cases rest <;> simp [setLastElem]

/-- The last element after `setLastElem` is the stored value. -/
theorem getLast?_setLastElem (l : List ℚ) (v : ℚ) (h : l ≠ []) :
    (setLastElem l v).getLast? = some v := by
  induction l with
  | nil => exact absurd rfl h
  | cons a rest ih =>
    cases rest with
    | nil => rfl
    | cons b rest' =>
      have h2 : (setLastElem (b :: rest') v).getLast? = some v :=
        ih (List.cons_ne_nil _ _)
      have h3 : setLastElem (a :: b :: rest') v
          = a :: setLastElem (b :: rest') v := rfl
      rw [h3]
      cases h4 : setLastElem (b :: rest') v with
      | nil => exact absurd h4 (setLastElem_ne_nil _ _ (List.cons_ne_nil _ _))
      | cons c t =>
        rw [List.getLast?_cons_cons, ← h4]
        exact h2

/-- C7. Writing any rational `v` through `_soft_shadow_a` /
`_hard_shadow_a` stores exactly the clamp of `v` into `[0, 1]` as the last
component of `soft_shadow_cl` / `hard_shadow_cl`, and that clamp always lies
in `[0, 1]`. -/
theorem shadowAlpha_clamped (v : ℚ) (s : ElevState)
    (hsoft : s.soft_shadow_cl ≠ []) (hhard : s.hard_shadow_cl ≠ []) :
    (setSoftShadowA v s).soft_shadow_cl.getLast? =
      some (if v < 0 then 0 else if v > 1 then 1 else v) ∧
    (setHardShadowA v s).hard_shadow_cl.getLast? =
      some (if v < 0 then 0 else if v > 1 then 1 else v) ∧
    0 ≤ (if v < 0 then (0 : ℚ) else if v > 1 then 1 else v) ∧
    (if v < 0 then (0 : ℚ) else if v > 1 then 1 else v) ≤ 1 := by
  refine ⟨getLast?_setLastElem _ _ hsoft, getLast?_setLastElem _ _ hhard, ?_, ?_⟩
  · split_ifs with h1 h2
    · exact le_refl 0
    · norm_num
    · exact not_lt.mp h1
  · split_ifs with h1 h2
    · norm_num
    · exact le_refl 1
    · exact not_lt.mp h2

/-- C7 (witness). Writing `5/2` at the default state stores alpha `1` in
both shadow colors. -/
theorem shadowAlpha_clamped_witness :
    (setSoftShadowA (5 / 2) elevDefault).soft_shadow_cl.getLast? =
      some (if (5 / 2 : ℚ) < 0 then 0 else if (5 / 2 : ℚ) > 1 then 1 else 5 / 2) ∧
    (setHardShadowA (5 / 2) elevDefault).hard_shadow_cl.getLast? =
      some (if (5 / 2 : ℚ) < 0 then 0 else if (5 / 2 : ℚ) > 1 then 1 else 5 / 2) ∧
    0 ≤ (if (5 / 2 : ℚ) < 0 then (0 : ℚ) else if (5 / 2 : ℚ) > 1 then 1 else 5 / 2) ∧
    (if (5 / 2 : ℚ) < 0 then (0 : ℚ) else if (5 / 2 : ℚ) > 1 then 1 else 5 / 2) ≤ 1 :=
  shadowAlpha_clamped (5 / 2) elevDefault (by simp [elevDefault])
    (by simp [elevDefault])

/-- C9. Disabling a widget forces the current elevation `_elevation` to
`0` while the configured `elevation` property keeps its value `e`, and
re-enabling restores `_elevation` to `e`. -/
theorem onDisabled_zeroes_and_restores (d : ℚ) (s : ElevState) (e : ℚ)
    (h : s.elevation = some e) :
    (onDisabled d true s).elevation = some e ∧
    (onDisabled d true s)._elevation = 0 ∧
    (onDisabled d false (onDisabled d true s)).elevation = some e ∧
    (onDisabled d false (onDisabled d true s))._elevation = e := by
  have h1 : (onDisabled d true s).elevation = some e := by
    rw [onDisabled_elev]; exact h
  refine ⟨h1, onDisabled_true_curElev d s, ?_, ?_⟩
  · rw [onDisabled_elev]; exact h1
  · rw [onDisabled_false_curElev, h1]

/-- C9 (witness). At a configured elevation of `7`, disabling zeroes
`_elevation`, keeps `elevation = 7`, and re-enabling restores
`_elevation = 7`. -/
theorem onDisabled_zeroes_and_restores_witness :
    (onDisabled 1 true { elevDefault with elevation := some 7 }).elevation
      = some 7 ∧
    (onDisabled 1 true { elevDefault with elevation := some 7 })._elevation
      = 0 ∧
    (onDisabled 1 false (onDisabled 1 true
      { elevDefault with elevation := some 7 })).elevation = some 7 ∧
    (onDisabled 1 false (onDisabled 1 true
      { elevDefault with elevation := some 7 }))._elevation = 7 :=
  onDisabled_zeroes_and_restores 1 { elevDefault with elevation := some 7 } 7 rfl

/-!
## Shadow group registry (`elevation.py:560-620`)
-/

/-- A weak reference as seen by the bulk group operations: `target` is the
referent when still alive (`wk()` in Python), `none` when it has died.
Widgets are identified by numbers. -/
structure WRef where
  target : Option ℕ
deriving DecidableEq, Repr

/-- The loop body of `force_shadow_pos` (`elevation.py:599-603`):
`for wk in group[:]: widget = wk(); if widget is None: group.remove(wk);
widget.shadow_pos = shadow_pos`.  There is no `continue` after the purge, so
on a dead reference the assignment still runs on `None` and raises
`AttributeError` (the purge that happened just before the raise is lost with
the exception).  On success the result is the list of
`(widget, shadow_pos)` assignments performed. -/
def forceShadowPosLoop (shadowPos : ℚ × ℚ) :
    List WRef → List (ℕ × (ℚ × ℚ)) → Except PyErr (List (ℕ × (ℚ × ℚ)))
  | [], updated => .ok updated
  | wk :: rest, updated =>
    match wk.target with
    | some wid => forceShadowPosLoop shadowPos rest (updated ++ [(wid, shadowPos)])
    | none => .error .attributeError

/-- Embedding of `force_shadow_pos` (`elevation.py:590-604`): early return when the group
name is `None`, `KeyError` when the registry lacks the group, otherwise the
loop over a copy of the group list. -/
def forceShadowPos (shadowGroup : Option String)
    (groups : List (String × List WRef)) (shadowPos : ℚ × ℚ) :
    Except PyErr (List (ℕ × (ℚ × ℚ))) :=
  match shadowGroup with
  | none => .ok []
  | some g =>
    match groups.lookup g with
    | none => .error (.keyError g)
    | some group => forceShadowPosLoop shadowPos group []

/-- The loop body of `update_group_property` (`elevation.py:615-619`): same
shape as `force_shadow_pos`, with `setattr(widget, property_name, value)`;
again no `continue` after the purge of a dead reference. -/
def updateGroupPropertyLoop {α : Type} (propertyName : String) (value : α) :
    List WRef → List (ℕ × String × α) → Except PyErr (List (ℕ × String × α))
  | [], updated => .ok updated
  | wk :: rest, updated =>
    match wk.target with
    | some wid =>
      updateGroupPropertyLoop propertyName value rest
        (updated ++ [(wid, propertyName, value)])
    | none => .error .attributeError

/-- Embedding of `update_group_property` (`elevation.py:607-620`). -/
def updateGroupProperty {α : Type} (shadowGroup : Option String)
    (groups : List (String × List WRef)) (propertyName : String) (value : α) :
    Except PyErr (List (ℕ × String × α)) :=
  match shadowGroup with
  | none => .ok []
  | some g =>
    match groups.lookup g with
    | none => .error (.keyError g)
    | some group => updateGroupPropertyLoop propertyName value group []

/-- C3. Evaluating both bulk operations on a group that contains one dead
weak reference: instead of skipping the purged reference, each operation
raises `AttributeError` (the missing `continue`), so neither operation
completes; on an all-live group both do update every member. -/
theorem groupOps_raise_on_dead_reference :
    forceShadowPos (some "global") [("global", [⟨none⟩])] (3, 4)
      = .error .attributeError ∧
    updateGroupProperty (some "global") [("global", [⟨none⟩])] "angle" (0 : ℚ)
      = .error .attributeError ∧
    forceShadowPos (some "global") [("global", [⟨some 1⟩, ⟨some 2⟩])] (3, 4)
      = .ok [(1, (3, 4)), (2, (3, 4))] ∧
    updateGroupProperty (some "global") [("global", [⟨some 1⟩, ⟨some 2⟩])]
      "angle" (0 : ℚ) = .ok [(1, "angle", 0), (2, "angle", 0)] :=
  ⟨rfl, rfl, rfl, rfl⟩

/-- Embedding of `_clear_shadow_groups` (`elevation.py:579-587`), the weak-reference
finalizer: walk the registry's group lists in insertion order;
`if not group: break` stops at the first empty group, otherwise remove the
dead reference from the first group containing it and stop.  Entries are
weak-reference identities. -/
def clearShadowGroups (wk : ℕ) : List (String × List ℕ) → List (String × List ℕ)
  | [] => []
  | (name, g) :: rest =>
    if g = [] then (name, g) :: rest
    else if wk ∈ g then (name, g.erase wk) :: rest
    else (name, g) :: clearShadowGroups wk rest

/-- C4. Evaluating the finalizer on the reachable registry state
`{"global": [], "g2": [wk]}` (widget created in the default group, moved to
`"g2"`, then dropped): the loop breaks at the empty `"global"` list and the
dead reference `wk = 7` is never removed from `"g2"`, contradicting the
claim that afterwards no group contains it. -/
theorem clearShadowGroups_stops_at_empty_group :
    clearShadowGroups 7 [("global", []), ("g2", [7])]
      = [("global", []), ("g2", [7])] ∧
    (clearShadowGroups 7 [("global", []), ("g2", [7])]).lookup "g2"
      = some [7] := ⟨rfl, rfl⟩

/-- The registry and the per-widget `prev_shadow_group` attribute as seen by
`on_shadow_group` for one live widget: group lists hold the referents of the
live weak references (weak references to the same live widget compare
equal, so `group.remove(widget)` removes by referent). -/
structure GroupState where
  groups : List (String × List ℕ)
  prev : Option String
deriving DecidableEq, Repr

/-- Rewrite the entry with key `p` through `f`, leaving the rest alone (the
in-place mutation of one dict value). -/
def mapEntry (p : String) (f : List ℕ → List ℕ)
    (l : List (String × List ℕ)) : List (String × List ℕ) :=
  l.map (fun q => if q.1 == p then (q.1, f q.2) else q)

/-- Embedding of `if group not in groups: groups[group] = []`
(`elevation.py:573-574`). -/
def ensureGroup (l : List (String × List ℕ)) (g : String) :
    List (String × List ℕ) :=
  if l.any (fun q => q.1 == g) then l else l ++ [(g, [])]

/-- Embedding of `on_shadow_group` (`elevation.py:560-576`): when
`self.prev_shadow_group` is truthy (Python: neither `None` nor the empty
string), remove every weak reference to `self` from that previous group
(`KeyError` if the registry misses it); then record the new group as
previous, create its entry if absent, and append a fresh weak reference to
`self`. -/
def onShadowGroup (w : ℕ) (value : String) (s : GroupState) :
    Except PyErr GroupState :=
  let removeStep : Except PyErr (List (String × List ℕ)) :=
    match s.prev with
    | none => .ok s.groups
    | some p =>
      if p = "" then .ok s.groups
      else
        match s.groups.lookup p with
        | none => .error (.keyError p)
        | some _ =>
          .ok (mapEntry p (fun g => g.filter (fun x => x != w)) s.groups)
  match removeStep with
  | .error e => .error e
  | .ok groups1 =>
    .ok ⟨mapEntry value (fun g => g ++ [w]) (ensureGroup groups1 value),
         some value⟩

/-- A sequence of `shadow_group` changes, each dispatching
`on_shadow_group`. -/
def runShadowOps (w : ℕ) : List String → GroupState → Except PyErr GroupState
  | [], s => .ok s
  | g :: rest, s =>
    match onShadowGroup w g s with
    | .error e => .error e
    | .ok s' => runShadowOps w rest s'

/-- The registry invariant for a live widget `w`: the previous-group record
is a non-empty name that is a registry key, registry keys are distinct, the
widget's reference occurs exactly once in that group and in no other. -/
def GInv (w : ℕ) (s : GroupState) : Prop :=
  ∃ p, s.prev = some p ∧ p ≠ "" ∧ (s.groups.map Prod.fst).Nodup ∧
    p ∈ s.groups.map Prod.fst ∧
    ∀ q ∈ s.groups, (q.1 = p → q.2.count w = 1) ∧ (q.1 ≠ p → w ∉ q.2)

theorem keys_mapEntry (p : String) (f : List ℕ → List ℕ)
    (l : List (String × List ℕ)) :
    (mapEntry p f l).map Prod.fst = l.map Prod.fst := by
  unfold mapEntry
  rw [List.map_map]
  apply List.map_congr_left
  intro q _
  show (if q.1 == p then (q.1, f q.2) else q).1 = q.1
  split
  · rfl
  · rfl

/-- After the removal pass of `on_shadow_group`, the widget occurs in no
group (given it only occurred in group `p` before). -/
theorem mapEntry_filter_not_mem (w : ℕ) (p : String)
    (l : List (String × List ℕ)) (hall : ∀ q ∈ l, q.1 ≠ p → w ∉ q.2) :
    ∀ q ∈ mapEntry p (fun gl => gl.filter (fun x => x != w)) l, w ∉ q.2 := by
  intro q hq
  unfold mapEntry at hq
  rcases List.mem_map.mp hq with ⟨q0, hq0, rfl⟩
  by_cases h : (q0.1 == p) = true
  · rw [if_pos h]
    intro hmem
    rcases List.mem_filter.mp hmem with ⟨_, hfw⟩
    simp at hfw
  · rw [if_neg h]
    exact hall q0 hq0 (by simpa using h)

theorem ensureGroup_not_mem (w : ℕ) (g : String) (l : List (String × List ℕ))
    (hall : ∀ q ∈ l, w ∉ q.2) : ∀ q ∈ ensureGroup l g, w ∉ q.2 := by
  intro q hq
  unfold ensureGroup at hq
  by_cases hany : (l.any (fun q => q.1 == g)) = true
  · rw [if_pos hany] at hq
    exact hall q hq
  · rw [if_neg hany] at hq
    rcases List.mem_append.mp hq with h1 | h1
    · exact hall q h1
    · have : q = (g, []) := List.mem_singleton.mp h1
      subst this
      simp

theorem keys_ensureGroup (g : String) (l : List (String × List ℕ)) :
    (ensureGroup l g).map Prod.fst =
      if l.any (fun q => q.1 == g) then l.map Prod.fst
      else l.map Prod.fst ++ [g] := by
  unfold ensureGroup
  by_cases hany : (l.any (fun q => q.1 == g)) = true
  · rw [if_pos hany, if_pos hany]
  · rw [if_neg hany, if_neg hany, List.map_append]
    rfl

theorem mem_keys_ensureGroup (g : String) (l : List (String × List ℕ)) :
    g ∈ (ensureGroup l g).map Prod.fst := by
  rw [keys_ensureGroup]
  by_cases hany : (l.any (fun q => q.1 == g)) = true
  · rw [if_pos hany]
    rcases List.any_eq_true.mp hany with ⟨q0, hq0, hq0g⟩
    exact List.mem_map.mpr ⟨q0, hq0, by simpa using hq0g⟩
  · rw [if_neg hany]
    exact List.mem_append.mpr (Or.inr (by simp))

theorem nodup_keys_ensureGroup (g : String) (l : List (String × List ℕ))
    (h : (l.map Prod.fst).Nodup) : ((ensureGroup l g).map Prod.fst).Nodup := by
  rw [keys_ensureGroup]
  by_cases hany : (l.any (fun q => q.1 == g)) = true
  · rw [if_pos hany]
    exact h
  · rw [if_neg hany]
    have hgnot : g ∉ l.map Prod.fst := by
      intro hgm
      rcases List.mem_map.mp hgm with ⟨q0, hq0, hq0g⟩
      exact hany (List.any_eq_true.mpr ⟨q0, hq0, by simp [hq0g]⟩)
    rw [List.nodup_append]
    refine ⟨h, List.nodup_singleton g, ?_⟩
    intro a ha hb
    exact hgnot ((List.mem_singleton.mp hb) ▸ ha)

/-- After appending the fresh reference: exactly one occurrence in group
`g`, none elsewhere. -/
theorem mapEntry_append_mem (w : ℕ) (g : String) (l : List (String × List ℕ))
    (hall : ∀ q ∈ l, w ∉ q.2) :
    ∀ q ∈ mapEntry g (fun gl => gl ++ [w]) l,
      (q.1 = g → q.2.count w = 1) ∧ (q.1 ≠ g → w ∉ q.2) := by
  intro q hq
  unfold mapEntry at hq
  rcases List.mem_map.mp hq with ⟨q0, hq0, rfl⟩
  by_cases h : (q0.1 == g) = true
  · rw [if_pos h]
    refine ⟨fun _ => ?_, fun hne => absurd (by simpa using h) hne⟩
    have hw : w ∉ q0.2 := hall q0 hq0
    simp [List.count_append, List.count_eq_zero_of_not_mem hw]
  · rw [if_neg h]
    exact ⟨fun heq => absurd heq (by simpa using h), fun _ => hall q0 hq0⟩

/-- One `on_shadow_group` call with a non-empty new group name succeeds and
re-establishes the exclusive-membership invariant, with the new group as the
recorded previous group. -/
theorem onShadowGroup_step (w : ℕ) (g : String) (s : GroupState)
    (hg : g ≠ "") (hinv : GInv w s) :
    ∃ s', onShadowGroup w g s = .ok s' ∧ GInv w s' ∧ s'.prev = some g := by
  obtain ⟨p, hp, hpne, hnodup, hpmem, hall⟩ := hinv
  have hlook : (s.groups.lookup p).isSome :=
    (lookup_isSome_iff_mem_keys _ _).mpr hpmem
  obtain ⟨l0, hl0⟩ : ∃ l0, s.groups.lookup p = some l0 := by
    cases h : s.groups.lookup p with
    | none => rw [h] at hlook; simp at hlook
    | some l0 => exact ⟨l0, rfl⟩
  have hgroups1 :
      ∀ q ∈ mapEntry p (fun gl => gl.filter (fun x => x != w)) s.groups,
        w ∉ q.2 :=
    mapEntry_filter_not_mem w p s.groups (fun q hq => (hall q hq).2)
  have hgroups2 :
      ∀ q ∈ ensureGroup
        (mapEntry p (fun gl => gl.filter (fun x => x != w)) s.groups) g,
        w ∉ q.2 :=
    ensureGroup_not_mem w g _ hgroups1
  refine ⟨⟨mapEntry g (fun gl => gl ++ [w])
    (ensureGroup (mapEntry p (fun gl => gl.filter (fun x => x != w))
      s.groups) g), some g⟩, ?_, ?_, rfl⟩
  · unfold onShadowGroup
    rw [hp]
    simp only [hl0]
    rw [if_neg hpne]
  · refine ⟨g, rfl, hg, ?_, ?_, ?_⟩
    · rw [keys_mapEntry]
      apply nodup_keys_ensureGroup
      rw [keys_mapEntry]
      exact hnodup
    · rw [keys_mapEntry]
      exact mem_keys_ensureGroup g _
    · exact mapEntry_append_mem w g _ hgroups2

/-- C5 (amended). Starting from any registry state satisfying the
exclusive-membership invariant (such as the post-construction state, where
the widget sits in `"global"`), after any sequence of `shadow_group` changes
to **non-empty** group names every dispatch succeeds and the widget's
reference is in the group assigned last, exactly once, and in no other
group.  (The restriction to non-empty names is forced by the truthiness
test on `prev_shadow_group`: an empty-string group name is treated like
"no previous group" and the widget is then never removed from it.) -/
theorem shadowGroup_exclusive (w : ℕ) (ops : List String) (s0 : GroupState)
    (p0 : String) (h0 : GInv w s0) (hprev : s0.prev = some p0)
    (hops : ∀ g ∈ ops, g ≠ "") :
    ∃ s', runShadowOps w ops s0 = .ok s' ∧
      s'.prev = some (ops.getLastD p0) ∧
      ∀ q ∈ s'.groups,
        (q.1 = ops.getLastD p0 → q.2.count w = 1) ∧
        (q.1 ≠ ops.getLastD p0 → w ∉ q.2) := by
  induction ops generalizing s0 p0 with
  | nil =>
    obtain ⟨p, hp, _, _, _, hall⟩ := h0
    have hpp : p = p0 := by
      rw [hprev] at hp
      exact (Option.some.injEq _ _).mp hp.symm
    subst hpp
    exact ⟨s0, rfl, by simpa using hprev, by simpa using hall⟩
  | cons g rest ih =>
    have hg : g ≠ "" := hops g (List.mem_cons_self g rest)
    obtain ⟨s1, hrun1, hinv1, hprev1⟩ := onShadowGroup_step w g s0 hg h0
    obtain ⟨s', hrun', hprev', hall'⟩ :=
      ih s1 g hinv1 hprev1 (fun x hx => hops x (List.mem_cons_of_mem g hx))
    refine ⟨s', ?_, ?_, ?_⟩
    · unfold runShadowOps
      rw [hrun1]
      exact hrun'
    · rw [hprev', List.getLastD_cons]
    · rw [List.getLastD_cons]
      exact hall'

/-- C5 (witness). The amended theorem run concretely: from the
post-construction state, one change to `"g2"` leaves the widget exactly once
in `"g2"` and nowhere else. -/
theorem shadowGroup_exclusive_witness :
    ∃ s', runShadowOps 0 ["g2"] ⟨[("global", [0])], some "global"⟩ = .ok s' ∧
      s'.prev = some ((["g2"] : List String).getLastD "global") ∧
      ∀ q ∈ s'.groups,
        (q.1 = (["g2"] : List String).getLastD "global" → q.2.count 0 = 1) ∧
        (q.1 ≠ (["g2"] : List String).getLastD "global" → (0 : ℕ) ∉ q.2) :=
  shadowGroup_exclusive 0 ["g2"] ⟨[("global", [0])], some "global"⟩ "global"
    ⟨"global", rfl, by decide, by decide, by decide, by decide⟩ rfl (by decide)

/-- C5 (counterexample). Starting from the post-construction state (the
widget's reference in `"global"`), setting `shadow_group` to the empty
string and then to `"g2"`: the empty string is falsy, so the removal from
the previous group is skipped and the widget's reference ends up in both
`""` and `"g2"` — it is not "in no other group". -/
theorem onShadowGroup_empty_name_breaks_invariant :
    runShadowOps 0 ["", "g2"] ⟨[("global", [0])], some "global"⟩ =
      .ok ⟨[("global", []), ("", [0]), ("g2", [0])], some "g2"⟩ := rfl

/-!
## The `radius` property (`elevation.py:263-295`)
-/

/-- Modelled from the spec: the storage behavior of Kivy's
`VariableListProperty` (a framework dependency, not part of this
repository's sources), which backs the `radius` property
(`radius = VariableListProperty([0])`, `elevation.py:263`).  A numeric list
of length 1 is expanded to `[a, a, a, a]`, of length 2 to `[a, b, a, b]`,
of length 4 kept corner-by-corner; numeric values are converted with
`float()` and in particular are **not** truncated to integers; other
lengths raise `ValueError`. -/
def variableListConvert (l : List ℚ) : Except PyErr (List ℚ) :=
  match l with
  | [a] => .ok [a, a, a, a]
  | [a, b] => .ok [a, b, a, b]
  | [a, b, c, d] => .ok [a, b, c, d]
  | _ => .error .valueError

/-- C8 (counterexample). The docstring's example
`widget.radius = [7.0, 8.7, 1.5, 3.0]  # Translates to [7,8,1,3]`
(`elevation.py:284`) is wrong about the stored value: a 4-element list is
stored corner-by-corner unchanged, and `[7, 8.7, 1.5, 3]` is not
`[7, 8, 1, 3]`. -/
theorem radius_example_not_truncated :
    variableListConvert [7, 87 / 10, 3 / 2, 3] = .ok [7, 87 / 10, 3 / 2, 3] ∧
    ([7, 87 / 10, 3 / 2, 3] : List ℚ) ≠ [7, 8, 1, 3] := by
  refine ⟨rfl, ?_⟩
  norm_num

/-- C8 (amended). For radius lists of length 1, 2 or 4 the stored value
is the documented 4-element per-corner expansion — `[a] ↦ [a, a, a, a]`,
`[a, b] ↦ [a, b, a, b]`, 4 elements corner-by-corner — with the values kept
as given (so the documented example is stored as `[7.0, 8.7, 1.5, 3.0]`
itself, not `[7, 8, 1, 3]`). -/
theorem radius_expansion (a b c e : ℚ) :
    variableListConvert [a] = .ok [a, a, a, a] ∧
    variableListConvert [a, b] = .ok [a, b, a, b] ∧
    variableListConvert [a, b, c, e] = .ok [a, b, c, e] :=
  ⟨rfl, rfl, rfl⟩

end KivyMD
